import Mathlib

/-!
Shallow embedding of the Healthcare Conference Targeting backend
(`backend/server.py`): the contact scoring engine (`analyze_contacts`),
conference filter resolution (`get_conference_filter`), the meeting
recommendation composer (`suggest_meetings`), and the dashboard
aggregator (`get_dashboard_stats`), together with proofs of the
behavioural properties of these operations.

The document store is modelled as three in-memory lists (users, contacts,
meetings) in insertion order; `find` with a filter is list filtration in
that order, `find_one` is the first match, `replace_one` with upsert
replaces the first record matching on the `id` field or appends, and
`insert_many` appends.  Python's stable `list.sort(key=score,
reverse=True)` is modelled by a stable insertion sort (any stable
descending sort computes the same list).
-/

set_option maxHeartbeats 1000000

namespace MedAhead

/-- Decides whether the character list `p` occurs at the very start of the
second list (helper for the substring test below). -/
def beginsWith : List Char → List Char → Bool
  | [], _ => true
  | _ :: _, [] => false
  | p :: ps, c :: cs => p == c && beginsWith ps cs

/-- Decides whether `p` occurs as a contiguous run inside the second list:
character-level model of Python's `p in s` on strings. -/
def occursIn (p : List Char) : List Char → Bool
  | [] => beginsWith p []
  | c :: cs => beginsWith p (c :: cs) || occursIn p cs

/-- Python's `s.lower()`: lower-case every character (identical to
`String.toLower`, stated character-wise so that it evaluates by kernel
reduction). -/
def lowerStr (s : String) : List Char :=
  s.data.map Char.toLower

/-- Python's `s.upper()`. -/
def upperStr (s : String) : String :=
  String.mk (s.data.map Char.toUpper)

/-- Python's `any(keyword in s.lower() for keyword in keywords)`; only the
subject string is lower-cased, exactly as in the source. -/
def containsAny (s : String) (keywords : List String) : Bool :=
  keywords.any (fun k => occursIn k.data (lowerStr s))

/-- A contact record (the `Contact` pydantic model plus the `ai_notes`
field that `analyze_contacts` adds to the stored document; `none` means
the field is absent from the document). -/
structure Contact where
  id : String
  name : String
  email : String
  company : String
  title : String
  industry : String
  conference : String
  score : Nat
  priority : String
  notes : String
  ai_notes : Option String
deriving DecidableEq, Repr

/-- A user profile record (the `UserProfile` pydantic model). -/
structure UserProfile where
  id : String
  name : String
  email : String
  company : String
  industry : String
  role : String
  goals : List String
  target_conferences : List String
deriving DecidableEq, Repr

/-- A meeting recommendation record (the `MeetingRecommendation` model). -/
structure MeetingRecommendation where
  id : String
  contact_id : String
  contact_name : String
  contact_company : String
  suggested_time : String
  reason : String
  personalized_message : String
  priority : String
deriving DecidableEq, Repr

/-- The document store: the three collections `db.users`, `db.contacts`
and `db.meetings`, each in insertion (natural) order. -/
structure DB where
  users : List UserProfile
  contacts : List Contact
  meetings : List MeetingRecommendation
deriving DecidableEq, Repr

/-- The static `conference_name_map` dictionary of `get_conference_filter`. -/
def conference_name_map : List (String × String) :=
  [("himss-2025", "HIMSS 2025"),
   ("jp-morgan-2025", "J.P. Morgan Healthcare Conference"),
   ("bio-2025", "BIO International Convention"),
   ("aha-2025", "American Hospital Association Annual Membership Meeting"),
   ("acp-2025", "American College of Physicians Internal Medicine Meeting"),
   ("rsna-2024", "Radiological Society of North America Annual Meeting")]

/-- `get_conference_filter`: returns `some canonicalName` for the Mongo
filter `{"conference": canonicalName}` and `none` for the empty filter
`{}` (used when the id is `"all"` or unknown). -/
def get_conference_filter (conference_id : String) : Option String :=
  if conference_id != "all" && (conference_name_map.lookup conference_id).isSome then
    conference_name_map.lookup conference_id
  else
    none

/-- Whether a contact document matches a conference filter: the empty
filter matches everything, otherwise Mongo equality on the `conference`
field (exact, case-sensitive). -/
def filterMatches : Option String → Contact → Bool
  | none, _ => true
  | some canonical, c => c.conference == canonical

/-- Executive-title keywords of the scoring loop. -/
def executive_keywords : List String :=
  ["ceo", "cto", "cmo", "vp", "director", "chief", "president"]

/-- Healthcare-organization keywords of the scoring loop. -/
def organization_keywords : List String :=
  ["hospital", "health system", "medical center", "clinic", "healthcare network"]

/-- Industry-relevance keywords of the scoring loop. -/
def industry_keywords : List String :=
  ["healthcare", "medical", "pharma", "biotech", "digital health", "healthtech"]

/-- Trend-alignment keywords of the scoring loop. -/
def trend_keywords : List String :=
  ["digital", "ai", "innovation", "transformation", "value", "analytics"]

/-- The body of the scoring loop of `analyze_contacts`, applied to one
contact document: base score 60, the four keyword bonuses, clamp at 100,
priority `"high"` exactly when the executive rule fires, and the
`ai_notes` annotation. -/
def scoreContact (contact : Contact) : Contact :=
  let score : Nat := 60
  let priority : String := "medium"
  let score := if containsAny contact.title executive_keywords then score + 25 else score
  let priority := if containsAny contact.title executive_keywords then "high" else priority
  let score := if containsAny contact.company organization_keywords then score + 20 else score
  let score := if containsAny contact.industry industry_keywords then score + 15 else score
  let score := if containsAny contact.title trend_keywords then score + 10 else score
  { contact with
      score := min score 100
      priority := priority
      ai_notes := some ("Scored based on " ++ contact.title ++
        ", organization type, and alignment with current healthcare industry priorities (2024-2025)") }

/-- `db.contacts.replace_one({"id": c.id}, c, upsert=True)`: replace the
first stored document whose `id` equals `c.id`, or append when none
matches. -/
def replace_one : List Contact → Contact → List Contact
  | [], c => [c]
  | x :: xs, c => if x.id == c.id then c :: xs else x :: replace_one xs c

/-- Insert a contact into a score-descending list, after every element of
strictly greater score and before every element of smaller-or-equal
score (the stable position for an element that originally came first). -/
def insertByScoreDesc (c : Contact) : List Contact → List Contact
  | [] => [c]
  | x :: xs => if c.score < x.score then x :: insertByScoreDesc c xs else c :: x :: xs

/-- Stable sort by score descending: the model of Python's
`analyzed_contacts.sort(key=lambda x: x["score"], reverse=True)`. -/
def sortByScoreDesc : List Contact → List Contact
  | [] => []
  | c :: cs => insertByScoreDesc c (sortByScoreDesc cs)

/-- An HTTP error response (`HTTPException`). -/
structure ApiError where
  status_code : Nat
  detail : String
deriving DecidableEq, Repr

/-- The success payload of `analyze_contacts`: either the early return for
an empty filtered set, or the scored result with its tier counts. -/
inductive AnalyzeResponse where
  | noContacts (message : String)
  | results (analyzed_contacts : List Contact)
      (total_analyzed high_priority medium_priority low_priority : Nat)
deriving DecidableEq, Repr

/-- `POST /api/contacts/analyze`.  Looks up the user profile, fails when
it is absent, filters the contacts by conference, scores each one,
persists every scored contact with `replace_one` (upsert), sorts the
scored list by score descending and returns the top 20 with tier counts.
The missing-profile branch raises `HTTPException(404, "User profile not
found")`, which the surrounding blanket `except Exception` handler
catches and re-raises as a 500 whose detail wraps the message, so the
caller observes status 500; the returned store is unchanged in that
case. -/
def analyze_contacts (st : DB) (user_id : String) (conference_id : String) :
    Except ApiError AnalyzeResponse × DB :=
  match st.users.find? (fun u => u.id == user_id) with
  | none =>
      (Except.error { status_code := 500, detail := "Analysis error: 404: User profile not found" }, st)
  | some _user_profile =>
      let conference_filter := get_conference_filter conference_id
      let contacts := st.contacts.filter (filterMatches conference_filter)
      if contacts.isEmpty then
        (Except.ok (AnalyzeResponse.noContacts "No contacts to analyze"), st)
      else
        let analyzed_contacts := contacts.map scoreContact
        let st1 := analyzed_contacts.foldl
          (fun s c => { s with contacts := replace_one s.contacts c }) st
        let sorted := sortByScoreDesc analyzed_contacts
        (Except.ok (AnalyzeResponse.results (sorted.take 20) analyzed_contacts.length
            (analyzed_contacts.countP (fun c => c.priority == "high"))
            (analyzed_contacts.countP (fun c => c.priority == "medium"))
            (analyzed_contacts.countP (fun c => c.priority == "low"))), st1)

/-- The fixed `time_slots` list of `suggest_meetings`. -/
def time_slots : List String :=
  ["Day 1, 10:00 AM", "Day 1, 2:00 PM", "Day 2, 11:00 AM", "Day 2, 3:00 PM", "Day 3, 9:00 AM"]

/-- The body of the recommendation loop of `suggest_meetings` for the
contact at position `i`: defaults `"Your Company"` / `["networking"]`
when the profile is absent, the templated message and reason, and the
slot label at index `i mod 5`. -/
def buildRecommendation (new_id : String) (user_profile : Option UserProfile)
    (conference_id : String) (i : Nat) (contact : Contact) : MeetingRecommendation :=
  let company := match user_profile with
    | some u => u.company
    | none => "Your Company"
  let goals := match user_profile with
    | some u => u.goals
    | none => ["networking"]
  let goal := match goals with
    | g :: _ => g
    | [] => "potential collaboration"
  { id := new_id
    contact_id := contact.id
    contact_name := contact.name
    contact_company := contact.company
    suggested_time := time_slots.getD (i % time_slots.length) ""
    reason := "Strategic partnership opportunity with " ++ contact.company ++
      " in " ++ contact.industry
    personalized_message := "Hi " ++ contact.name ++ ", I\x27m with " ++ company ++
      " and noticed your work at " ++ contact.company ++ ". I\x27d love to discuss " ++
      goal ++ ". Available for coffee at " ++ upperStr conference_id ++ "?"
    priority := contact.priority }

/-- The success payload of `suggest_meetings`. -/
structure SuggestResponse where
  meeting_suggestions : List MeetingRecommendation
  total_suggestions : Nat
deriving DecidableEq, Repr

/-- `POST /api/meetings/suggest`.  Selects up to 10 high-priority contacts
matching the conference filter, falling back to up to 5 contacts matching
only the filter when that query is empty; looks up the (optional) user
profile; builds one recommendation per selected contact, cycling the five
slot labels by position; appends all of them to the meetings collection
and returns them.  `fresh_ids i` supplies the `uuid4` identifier of the
`i`-th recommendation. -/
def suggest_meetings (st : DB) (user_id : String) (conference_id : String)
    (fresh_ids : Nat → String) : SuggestResponse × DB :=
  let conference_filter := get_conference_filter conference_id
  let high_priority := (st.contacts.filter
    (fun c => filterMatches conference_filter c && c.priority == "high")).take 10
  let contacts := if high_priority.isEmpty then
      (st.contacts.filter (filterMatches conference_filter)).take 5
    else high_priority
  let user_profile := st.users.find? (fun u => u.id == user_id)
  let recommendations := contacts.mapIdx
    (fun i c => buildRecommendation (fresh_ids i) user_profile conference_id i c)
  ({ meeting_suggestions := recommendations
     total_suggestions := recommendations.length },
   { st with meetings := st.meetings ++ recommendations })

/-- The payload of `GET /api/dashboard/stats`. -/
structure DashboardStats where
  total_contacts : Nat
  high_priority_contacts : Nat
  meeting_suggestions : Nat
  roi_projection : String
deriving DecidableEq, Repr

/-- `GET /api/dashboard/stats`: three `count_documents` reads and the
derived `roi_projection` display string; no collection is modified, which
the returned store component makes explicit. -/
def get_dashboard_stats (st : DB) (_user_id : String) : DashboardStats × DB :=
  ({ total_contacts := st.contacts.length
     high_priority_contacts := (st.contacts.filter (fun c => c.priority == "high")).length
     meeting_suggestions := st.meetings.length
     roi_projection := toString (st.meetings.length * 15) ++ "% increase in qualified leads" },
   st)

/-- The `analyzed_contacts` local of `analyze_contacts`: the
conference-filtered contacts of the store, each one scored. -/
def analyzedOf (st : DB) (conference_id : String) : List Contact :=
  (st.contacts.filter (filterMatches (get_conference_filter conference_id))).map scoreContact

/-! ## Concrete fixtures used by the witnesses -/

/-- The no-bonus contact of the spec: title "Analyst", company "Acme
Corp", industry "Retail". -/
def analystContact : Contact :=
  { id := "c-analyst", name := "Alex Doe", email := "alex@acme.com", company := "Acme Corp",
    title := "Analyst", industry := "Retail", conference := "HIMSS 2025",
    score := 0, priority := "medium", notes := "", ai_notes := none }

/-- The clamped contact of the spec: VP Engineering at HealthTech Inc,
industry Healthcare Technology. -/
def vpContact : Contact :=
  { id := "c-vp", name := "Mike Chen", email := "mike@healthtech.com", company := "HealthTech Inc",
    title := "VP Engineering", industry := "Healthcare Technology", conference := "HIMSS 2025",
    score := 0, priority := "medium", notes := "", ai_notes := none }

/-- A store with one contact but no user profiles. -/
def ghostDB : DB :=
  { users := [], contacts := [analystContact], meetings := [] }

/-- A fixed meeting recommendation record. -/
def demoMeeting (n : String) : MeetingRecommendation :=
  { id := n, contact_id := "c-analyst", contact_name := "Alex Doe", contact_company := "Acme Corp",
    suggested_time := "Day 1, 10:00 AM", reason := "r", personalized_message := "m",
    priority := "medium" }

/-- A store holding exactly three meeting recommendations. -/
def threeMeetingsDB : DB :=
  { users := [], contacts := [], meetings := [demoMeeting "m1", demoMeeting "m2", demoMeeting "m3"] }

/-- A saved user profile. -/
def demoUser : UserProfile :=
  { id := "user-1", name := "John Doe", email := "john@healthtech.com",
    company := "HealthTech Solutions", industry := "Healthcare Technology",
    role := "VP of Sales", goals := ["Find new partners"], target_conferences := [] }

/-- A store with one profile and two contacts of distinct ids. -/
def analyzeDB : DB :=
  { users := [demoUser], contacts := [analystContact, vpContact], meetings := [] }

/-- A deterministic stand-in for the stream of generated uuid4 values. -/
def demoIds : Nat → String :=
  fun i => "meeting-" ++ toString i

/-! ## General lemmas about the scoring engine -/

/-- Closed form of the scoring loop: final score is the clamped sum of the
base and the four keyword bonuses, and priority records exactly whether
the executive rule fired. -/
theorem scoring_formula (c : Contact) :
    (scoreContact c).score =
      min (60 + (if containsAny c.title executive_keywords then 25 else 0)
        + (if containsAny c.company organization_keywords then 20 else 0)
        + (if containsAny c.industry industry_keywords then 15 else 0)
        + (if containsAny c.title trend_keywords then 10 else 0)) 100
    ∧ (scoreContact c).priority =
        (if containsAny c.title executive_keywords then "high" else "medium") := by
  unfold scoreContact
  by_cases h1 : containsAny c.title executive_keywords <;>
    by_cases h2 : containsAny c.company organization_keywords <;>
    by_cases h3 : containsAny c.industry industry_keywords <;>
    by_cases h4 : containsAny c.title trend_keywords <;>
    simp [h1, h2, h3, h4]

/-! ## Claim theorems: scoring -/

/-- C1: the scoring engine computes score and priority by the fixed rule
set (base 60, the four keyword bonuses, clamp at 100, priority high
exactly when the executive rule fires); an Analyst at Acme Corp in Retail
scores 60 with priority medium, and a VP Engineering at HealthTech Inc in
Healthcare Technology scores 100 with priority high. -/
theorem scoreContact_rules :
    (∀ c : Contact,
      (scoreContact c).score =
        min (60 + (if containsAny c.title executive_keywords then 25 else 0)
          + (if containsAny c.company organization_keywords then 20 else 0)
          + (if containsAny c.industry industry_keywords then 15 else 0)
          + (if containsAny c.title trend_keywords then 10 else 0)) 100
      ∧ (scoreContact c).priority =
          (if containsAny c.title executive_keywords then "high" else "medium"))
    ∧ (∀ c : Contact, c.title = "Analyst" → c.company = "Acme Corp" → c.industry = "Retail" →
        (scoreContact c).score = 60 ∧ (scoreContact c).priority = "medium")
    ∧ (∀ c : Contact, c.title = "VP Engineering" → c.company = "HealthTech Inc" →
        c.industry = "Healthcare Technology" →
        (scoreContact c).score = 100 ∧ (scoreContact c).priority = "high") := by
  refine ⟨fun c => scoring_formula c, fun c ht hc hi => ?_, fun c ht hc hi => ?_⟩
  · have h := scoring_formula c
    rw [ht, hc, hi] at h
    rw [show containsAny "Analyst" executive_keywords = false from by decide,
        show containsAny "Acme Corp" organization_keywords = false from by decide,
        show containsAny "Retail" industry_keywords = false from by decide,
        show containsAny "Analyst" trend_keywords = false from by decide] at h
    simpa using h
  · have h := scoring_formula c
    rw [ht, hc, hi] at h
    rw [show containsAny "VP Engineering" executive_keywords = true from by decide,
        show containsAny "HealthTech Inc" organization_keywords = false from by decide,
        show containsAny "Healthcare Technology" industry_keywords = true from by decide,
        show containsAny "VP Engineering" trend_keywords = false from by decide] at h
    simpa using h

/-- Witness for C1: the two boundary contacts of the claim, scored
concretely through the theorem. -/
theorem scoreContact_rules_witness :
    ((analystContact.title = "Analyst" ∧ analystContact.company = "Acme Corp"
        ∧ analystContact.industry = "Retail")
      ∧ (scoreContact analystContact).score = 60
      ∧ (scoreContact analystContact).priority = "medium")
    ∧ ((vpContact.title = "VP Engineering" ∧ vpContact.company = "HealthTech Inc"
        ∧ vpContact.industry = "Healthcare Technology")
      ∧ (scoreContact vpContact).score = 100
      ∧ (scoreContact vpContact).priority = "high") :=
  ⟨⟨⟨rfl, rfl, rfl⟩, scoreContact_rules.2.1 analystContact rfl rfl rfl⟩,
   ⟨⟨rfl, rfl, rfl⟩, scoreContact_rules.2.2 vpContact rfl rfl rfl⟩⟩

/-- C9: every score the engine writes is in fact in [60, 100]: the base
is 60 and each bonus is non-negative, so no input scores below base. -/
theorem scoreContact_score_at_least_base (c : Contact) :
    60 ≤ (scoreContact c).score ∧ (scoreContact c).score ≤ 100 := by
  rw [(scoring_formula c).1]
  refine ⟨le_min (le_trans ?_ (Nat.le_add_right _ _)) (by decide), Nat.min_le_right _ _⟩
  exact le_trans (Nat.le_add_right _ _) (le_trans (Nat.le_add_right _ _) (Nat.le_add_right _ _))

/-! ## Claim theorems: conference filter -/

/-- C5: the identifier `"all"` or an unmapped identifier resolves to a
predicate matching every contact; a mapped identifier resolves to exact,
case-sensitive equality with the mapped canonical conference name. -/
theorem get_conference_filter_semantics (conference_id : String) (c : Contact) :
    ((conference_id = "all" ∨ conference_name_map.lookup conference_id = none) →
      filterMatches (get_conference_filter conference_id) c = true)
    ∧ (∀ canonical, conference_id ≠ "all" →
        conference_name_map.lookup conference_id = some canonical →
        filterMatches (get_conference_filter conference_id) c = (c.conference == canonical)) := by
  constructor
  · rintro (h | h)
    · subst h; rfl
    · simp [get_conference_filter, h, filterMatches]
  · intro canonical hne hsome
    have hb : (conference_id != "all") = true := by
      simpa [bne_iff_ne] using hne
    simp [get_conference_filter, hb, hsome, filterMatches]

/-- Witness for C5: a mapped identifier compares against the canonical
name, shown on a concrete contact; an unknown identifier matches it
regardless of its conference. -/
theorem get_conference_filter_semantics_witness :
    (conference_name_map.lookup "himss-2025" = some "HIMSS 2025"
      ∧ filterMatches (get_conference_filter "himss-2025") analystContact
          = (analystContact.conference == "HIMSS 2025"))
    ∧ (conference_name_map.lookup "unknown-conf" = none
      ∧ filterMatches (get_conference_filter "unknown-conf") analystContact = true) :=
  ⟨⟨by decide, (get_conference_filter_semantics "himss-2025" analystContact).2
      "HIMSS 2025" (by decide) (by decide)⟩,
   ⟨by decide, (get_conference_filter_semantics "unknown-conf" analystContact).1
      (Or.inr (by decide))⟩⟩

/-! ## Claim theorems: missing profile on analysis -/

/-- C3 (code behaviour at the failing input): when the user profile is
absent, `analyze_contacts` performs no scoring and leaves the contact
store untouched, but the error the caller observes carries status 500,
not 404: the internally raised `HTTPException(404, "User profile not
found")` is caught by the handler's own blanket `except Exception` and
re-raised as a generic 500 analysis error. -/
theorem analyze_contacts_missing_profile (st : DB) (user_id conference_id : String)
    (h : st.users.find? (fun u => u.id == user_id) = none) :
    analyze_contacts st user_id conference_id =
      (Except.error { status_code := 500, detail := "Analysis error: 404: User profile not found" },
       st) := by
  unfold analyze_contacts
  rw [h]

/-- Witness for C3: a store with no users but one contact; the operation
errors with status 500 and returns the store unchanged. -/
theorem analyze_contacts_missing_profile_witness :
    ghostDB.users.find? (fun u => u.id == "ghost-user") = none
    ∧ analyze_contacts ghostDB "ghost-user" "himss-2025" =
      (Except.error { status_code := 500, detail := "Analysis error: 404: User profile not found" },
       ghostDB) :=
  ⟨by decide, analyze_contacts_missing_profile ghostDB "ghost-user" "himss-2025" (by decide)⟩

/-! ## Claim theorems: dashboard -/

/-- C10: `roi_projection` is the meeting-recommendation count times 15,
rendered as a percentage string; three stored suggestions give exactly
"45% increase in qualified leads"; the stats operation does not modify
the store. -/
theorem get_dashboard_stats_roi (st : DB) (user_id : String) :
    (get_dashboard_stats st user_id).1.roi_projection =
      toString (st.meetings.length * 15) ++ "% increase in qualified leads"
    ∧ (get_dashboard_stats st user_id).2 = st
    ∧ (st.meetings.length = 3 →
        (get_dashboard_stats st user_id).1.roi_projection = "45% increase in qualified leads") := by
  refine ⟨rfl, rfl, fun h => ?_⟩
  simp only [get_dashboard_stats, h]
  decide

/-- Witness for C10: a store holding exactly three meeting
recommendations projects a 45% increase. -/
theorem get_dashboard_stats_roi_witness :
    threeMeetingsDB.meetings.length = 3
    ∧ (get_dashboard_stats threeMeetingsDB "user-1").1.roi_projection =
        "45% increase in qualified leads" :=
  ⟨by decide, (get_dashboard_stats_roi threeMeetingsDB "user-1").2.2 (by decide)⟩

/-! ## General lemmas: sorting by score -/

/-- Inserting into the stable descending sort permutes the extended list. -/
theorem insertByScoreDesc_perm (c : Contact) (l : List Contact) :
    List.Perm (insertByScoreDesc c l) (c :: l) := by
  induction l with
  | nil => exact List.Perm.refl _
  | cons x xs ih =>
    unfold insertByScoreDesc
    split
    · exact (List.Perm.cons x ih).trans (List.Perm.swap c x xs)
    · exact List.Perm.refl _

/-- The stable descending sort permutes its input. -/
theorem sortByScoreDesc_perm (l : List Contact) :
    List.Perm (sortByScoreDesc l) l := by
  induction l with
  | nil => exact List.Perm.refl _
  | cons c cs ih =>
    exact (insertByScoreDesc_perm c (sortByScoreDesc cs)).trans (List.Perm.cons c ih)

/-- Insertion preserves the descending-by-score ordering. -/
theorem insertByScoreDesc_pairwise (c : Contact) (l : List Contact)
    (h : l.Pairwise (fun a b => b.score ≤ a.score)) :
    (insertByScoreDesc c l).Pairwise (fun a b => b.score ≤ a.score) := by
  induction l with
  | nil => simp [insertByScoreDesc]
  | cons x xs ih =>
    rw [List.pairwise_cons] at h
    obtain ⟨hx, hxs⟩ := h
    unfold insertByScoreDesc
    split
    · rename_i hlt
      rw [List.pairwise_cons]
      refine ⟨fun y hy => ?_, ih hxs⟩
      rcases List.mem_cons.mp ((insertByScoreDesc_perm c xs).mem_iff.mp hy) with hyc | hyxs
      · subst hyc; exact Nat.le_of_lt hlt
      · exact hx y hyxs
    · rename_i hge
      have hxc : x.score ≤ c.score := Nat.le_of_not_lt hge
      rw [List.pairwise_cons]
      refine ⟨fun y hy => ?_, List.pairwise_cons.mpr ⟨hx, hxs⟩⟩
      rcases List.mem_cons.mp hy with h1 | h2
      · subst h1; exact hxc
      · exact le_trans (hx y h2) hxc

/-- The sort output is descending by score. -/
theorem sortByScoreDesc_pairwise (l : List Contact) :
    (sortByScoreDesc l).Pairwise (fun a b => b.score ≤ a.score) := by
  induction l with
  | nil => simp [sortByScoreDesc]
  | cons c cs ih => exact insertByScoreDesc_pairwise c _ ih

/-- Stability of the insertion step: the new element lands in front of
every stored element of equal score, so per-score subsequences extend on
the left. -/
theorem insertByScoreDesc_filter (c : Contact) (l : List Contact) (v : Nat) :
    (insertByScoreDesc c l).filter (fun x => x.score == v)
      = (if c.score == v then [c] else []) ++ l.filter (fun x => x.score == v) := by
  induction l with
  | nil => by_cases hc : (c.score == v) = true <;> simp [insertByScoreDesc, List.filter, hc]
  | cons x xs ih =>
    unfold insertByScoreDesc
    split
    · rename_i hlt
      rw [List.filter_cons]
      by_cases hxv : (x.score == v) = true
      · have hcv : (c.score == v) = false := by
          rw [beq_iff_eq] at hxv
          exact beq_eq_false_iff_ne.mpr (by omega)
        simp [hxv, ih, hcv, List.filter_cons]
      · simp [hxv, ih, List.filter_cons]
    · rw [List.filter_cons, List.filter_cons]
      by_cases hcv : (c.score == v) = true <;> simp [hcv]

/-- Stability of the sort: for every score value, the subsequence of
contacts carrying that score is exactly the one of the input (original
relative order preserved). -/
theorem sortByScoreDesc_filter (l : List Contact) (v : Nat) :
    (sortByScoreDesc l).filter (fun x => x.score == v)
      = l.filter (fun x => x.score == v) := by
  induction l with
  | nil => rfl
  | cons c cs ih =>
    rw [sortByScoreDesc, insertByScoreDesc_filter, ih, List.filter_cons]
    by_cases hc : (c.score == v) = true <;> simp [hc]

/-! ## General lemmas: persistence of the scored contacts -/

/-- Scoring never changes the identifier of a contact. -/
theorem scoreContact_id (c : Contact) : (scoreContact c).id = c.id := rfl

/-- Folding the per-contact store update over the whole state only
rewrites the contacts collection. -/
theorem foldl_replace_db (l : List Contact) (st : DB) :
    l.foldl (fun s c => { s with contacts := replace_one s.contacts c }) st
      = { st with contacts := l.foldl replace_one st.contacts } := by
  induction l generalizing st with
  | nil => rfl
  | cons c cs ih =>
    rw [List.foldl_cons, List.foldl_cons]
    exact ih _

/-- `replace_one` walks past a head whose id differs from every update. -/
theorem foldl_replace_skip (x : Contact) :
    ∀ (l t : List Contact), (∀ u ∈ l, u.id ≠ x.id) →
      l.foldl replace_one (x :: t) = x :: l.foldl replace_one t := by
  intro l
  induction l with
  | nil => intro t _; rfl
  | cons u us ih =>
    intro t h
    rw [List.foldl_cons, List.foldl_cons]
    have hne : (x.id == u.id) = false :=
      beq_eq_false_iff_ne.mpr (Ne.symm (h u (List.mem_cons_self u us)))
    have hrw : replace_one (x :: t) u = x :: replace_one t u := by
      simp [replace_one, hne]
    rw [hrw]
    exact ih (replace_one t u) (fun v hv => h v (List.mem_cons_of_mem u hv))

/-- When all stored ids are distinct, persisting the scored copies of the
filtered contacts rewrites exactly the matching positions of the store,
preserving both the unmatched records and the overall order. -/
theorem foldl_replace_filter (f : Contact → Bool) :
    ∀ cs : List Contact, (cs.map Contact.id).Nodup →
      ((cs.filter f).map scoreContact).foldl replace_one cs
        = cs.map (fun c => if f c then scoreContact c else c) := by
  intro cs
  induction cs with
  | nil => intro _; rfl
  | cons x rest ih =>
    intro h
    rw [List.map_cons, List.nodup_cons] at h
    obtain ⟨hx, hrest⟩ := h
    have hupd : ∀ u ∈ (rest.filter f).map scoreContact, u.id ≠ x.id := by
      intro u hu
      obtain ⟨c0, hc0, rfl⟩ := List.mem_map.mp hu
      intro heq
      rw [scoreContact_id] at heq
      apply hx
      rw [← heq]
      exact List.mem_map_of_mem Contact.id (List.mem_of_mem_filter hc0)
    by_cases hf : f x = true
    · rw [List.filter_cons, if_pos hf, List.map_cons, List.foldl_cons]
      have h1 : replace_one (x :: rest) (scoreContact x) = scoreContact x :: rest := by
        simp [replace_one, scoreContact_id]
      rw [h1, foldl_replace_skip (scoreContact x) _ rest hupd, ih hrest,
        List.map_cons, if_pos hf]
    · rw [List.filter_cons, if_neg hf, foldl_replace_skip x _ rest hupd, ih hrest,
        List.map_cons, if_neg hf]

/-- Any member of a store after one `replace_one` is an original record
or the inserted one. -/
theorem mem_replace_one (xs : List Contact) (c x : Contact) :
    x ∈ replace_one xs c → x ∈ xs ∨ x = c := by
  induction xs with
  | nil =>
    intro h
    right
    simpa [replace_one] using h
  | cons y ys ih =>
    intro h
    rw [replace_one] at h
    revert h
    split
    · intro h
      rcases List.mem_cons.mp h with h1 | h2
      · exact Or.inr h1
      · exact Or.inl (List.mem_cons_of_mem y h2)
    · intro h
      rcases List.mem_cons.mp h with h1 | h2
      · exact Or.inl (h1 ▸ List.mem_cons_self y ys)
      · rcases ih h2 with h3 | h4
        · exact Or.inl (List.mem_cons_of_mem y h3)
        · exact Or.inr h4

/-- Any member of a store after a batch of `replace_one` updates is an
original record or one of the updates. -/
theorem mem_foldl_replace (l : List Contact) :
    ∀ (t : List Contact) (x : Contact), x ∈ l.foldl replace_one t → x ∈ t ∨ x ∈ l := by
  induction l with
  | nil => intro t x h; exact Or.inl h
  | cons u us ih =>
    intro t x h
    rw [List.foldl_cons] at h
    rcases ih (replace_one t u) x h with h1 | h2
    · rcases mem_replace_one t u x h1 with h3 | h4
      · exact Or.inl h3
      · exact Or.inr (h4 ▸ List.mem_cons_self u us)
    · exact Or.inr (List.mem_cons_of_mem u h2)

/-- C2: every score the engine writes lies in [0, 100]; consequently
every record the analysis leaves in the contact store is either an
untouched original or carries a score in [0, 100]. -/
theorem scoreContact_score_in_range :
    (∀ c : Contact, 0 ≤ (scoreContact c).score ∧ (scoreContact c).score ≤ 100)
    ∧ (∀ (st : DB) (user_id conference_id : String) (c : Contact),
        c ∈ ((analyze_contacts st user_id conference_id).2).contacts →
        c ∈ st.contacts ∨ (0 ≤ c.score ∧ c.score ≤ 100)) := by
  have hbound : ∀ c : Contact, 0 ≤ (scoreContact c).score ∧ (scoreContact c).score ≤ 100 := by
    intro c
    refine ⟨Nat.zero_le _, ?_⟩
    rw [(scoring_formula c).1]
    exact Nat.min_le_right _ _
  refine ⟨hbound, fun st user_id conference_id c hc => ?_⟩
  rcases hfind : st.users.find? (fun u => u.id == user_id) with _ | u
  · simp only [analyze_contacts, hfind] at hc
    exact Or.inl hc
  · by_cases hemp :
        (st.contacts.filter (filterMatches (get_conference_filter conference_id))).isEmpty = true
    · simp only [analyze_contacts, hfind, hemp, if_true] at hc
      exact Or.inl hc
    · rw [Bool.not_eq_true] at hemp
      simp only [analyze_contacts, hfind, hemp, Bool.false_eq_true, if_false,
        foldl_replace_db] at hc
      rcases mem_foldl_replace _ _ _ hc with h1 | h2
      · exact Or.inl h1
      · obtain ⟨c0, _hc0, rfl⟩ := List.mem_map.mp h2
        exact Or.inr (hbound c0)

/-- Witness for C2: in the analysed two-contact store, the scored analyst
record is persisted and its score lies in [0, 100]. -/
theorem scoreContact_score_in_range_witness :
    scoreContact analystContact ∈ ((analyze_contacts analyzeDB "user-1" "himss-2025").2).contacts
    ∧ (scoreContact analystContact ∈ analyzeDB.contacts
        ∨ (0 ≤ (scoreContact analystContact).score ∧ (scoreContact analystContact).score ≤ 100)) :=
  ⟨by decide,
   scoreContact_score_in_range.2 analyzeDB "user-1" "himss-2025" (scoreContact analystContact)
     (by decide)⟩

/-- On a present profile and a nonempty filtered set, `analyze_contacts`
returns the top 20 of the stably sorted scored list with its tier
counts, and (given distinct stored ids) rewrites exactly the matching
store positions with their scored copies. -/
theorem analyze_contacts_success_eq (st : DB) (user_id conference_id : String) (u : UserProfile)
    (hprof : st.users.find? (fun x => x.id == user_id) = some u)
    (hids : (st.contacts.map Contact.id).Nodup)
    (hne : st.contacts.filter (filterMatches (get_conference_filter conference_id)) ≠ []) :
    analyze_contacts st user_id conference_id =
      (Except.ok (AnalyzeResponse.results
          ((sortByScoreDesc (analyzedOf st conference_id)).take 20)
          (analyzedOf st conference_id).length
          ((analyzedOf st conference_id).countP (fun c => c.priority == "high"))
          ((analyzedOf st conference_id).countP (fun c => c.priority == "medium"))
          ((analyzedOf st conference_id).countP (fun c => c.priority == "low"))),
       { st with contacts := st.contacts.map (fun c =>
           if filterMatches (get_conference_filter conference_id) c then scoreContact c else c) }) := by
  have hempF :
      (st.contacts.filter (filterMatches (get_conference_filter conference_id))).isEmpty = false := by
    rw [Bool.eq_false_iff]
    intro h
    exact hne (List.isEmpty_iff.mp h)
  simp only [analyze_contacts, hprof, analyzedOf, hempF, Bool.false_eq_true, if_false]
  rw [foldl_replace_db, foldl_replace_filter _ _ hids]

/-- In every successful outcome (profile present, distinct stored ids),
the post-state contact collection is the original one with each filtered
contact replaced in place by its scored copy. -/
theorem analyze_contacts_store_contacts (st : DB) (user_id conference_id : String)
    (u : UserProfile)
    (hprof : st.users.find? (fun x => x.id == user_id) = some u)
    (hids : (st.contacts.map Contact.id).Nodup) :
    ((analyze_contacts st user_id conference_id).2).contacts
      = st.contacts.map (fun c =>
          if filterMatches (get_conference_filter conference_id) c then scoreContact c else c) := by
  by_cases hne : st.contacts.filter (filterMatches (get_conference_filter conference_id)) = []
  · have hemp :
        (st.contacts.filter (filterMatches (get_conference_filter conference_id))).isEmpty = true := by
      rw [hne]; rfl
    simp only [analyze_contacts, hprof, hemp, if_true]
    have hforall : ∀ c ∈ st.contacts,
        filterMatches (get_conference_filter conference_id) c = false := by
      intro c hc
      by_contra hcc
      have hmem : c ∈ st.contacts.filter (filterMatches (get_conference_filter conference_id)) :=
        List.mem_filter.mpr ⟨hc, Bool.not_eq_false _ ▸ hcc⟩
      rw [hne] at hmem
      exact absurd hmem (List.not_mem_nil c)
    conv_lhs => rw [← List.map_id st.contacts]
    exact List.map_congr_left fun c hc => by rw [hforall c hc]; rfl
  · rw [analyze_contacts_success_eq st user_id conference_id u hprof hids hne]

/-! ## Claim theorems: ordering, truncation and persistence of analysis -/

/-- C4: the analysis sorts the complete scored set by score descending
with a stable sort (equal scores keep their input order), returns only
the first 20 of the sorted sequence, and persists every scored contact
into the store, not just the returned 20. -/
theorem analyze_contacts_sorts_and_persists (st : DB) (user_id conference_id : String)
    (u : UserProfile)
    (hprof : st.users.find? (fun x => x.id == user_id) = some u)
    (hids : (st.contacts.map Contact.id).Nodup)
    (hne : st.contacts.filter (filterMatches (get_conference_filter conference_id)) ≠ []) :
    analyze_contacts st user_id conference_id =
      (Except.ok (AnalyzeResponse.results
          ((sortByScoreDesc (analyzedOf st conference_id)).take 20)
          (analyzedOf st conference_id).length
          ((analyzedOf st conference_id).countP (fun c => c.priority == "high"))
          ((analyzedOf st conference_id).countP (fun c => c.priority == "medium"))
          ((analyzedOf st conference_id).countP (fun c => c.priority == "low"))),
       { st with contacts := st.contacts.map (fun c =>
           if filterMatches (get_conference_filter conference_id) c then scoreContact c else c) })
    ∧ List.Perm (sortByScoreDesc (analyzedOf st conference_id)) (analyzedOf st conference_id)
    ∧ (sortByScoreDesc (analyzedOf st conference_id)).Pairwise (fun a b => b.score ≤ a.score)
    ∧ (∀ v : Nat, (sortByScoreDesc (analyzedOf st conference_id)).filter (fun x => x.score == v)
        = (analyzedOf st conference_id).filter (fun x => x.score == v))
    ∧ (∀ c ∈ analyzedOf st conference_id,
        c ∈ ((analyze_contacts st user_id conference_id).2).contacts) := by
  refine ⟨analyze_contacts_success_eq st user_id conference_id u hprof hids hne,
    sortByScoreDesc_perm _, sortByScoreDesc_pairwise _, fun v => sortByScoreDesc_filter _ v,
    fun c hc => ?_⟩
  rw [analyze_contacts_store_contacts st user_id conference_id u hprof hids]
  obtain ⟨c0, hc0, rfl⟩ := List.mem_map.mp hc
  have h0 := List.mem_filter.mp hc0
  exact List.mem_map.mpr ⟨c0, h0.1, by rw [if_pos h0.2]⟩

/-- Witness for C4: the two-contact store, analysed concretely through
the theorem; both scored contacts are persisted and the sorted top 20 is
returned. -/
theorem analyze_contacts_sorts_and_persists_witness :
    (analyzeDB.users.find? (fun x => x.id == "user-1") = some demoUser
      ∧ (analyzeDB.contacts.map Contact.id).Nodup
      ∧ analyzeDB.contacts.filter (filterMatches (get_conference_filter "himss-2025")) ≠ [])
    ∧ analyze_contacts analyzeDB "user-1" "himss-2025" =
      (Except.ok (AnalyzeResponse.results
          ((sortByScoreDesc (analyzedOf analyzeDB "himss-2025")).take 20)
          (analyzedOf analyzeDB "himss-2025").length
          ((analyzedOf analyzeDB "himss-2025").countP (fun c => c.priority == "high"))
          ((analyzedOf analyzeDB "himss-2025").countP (fun c => c.priority == "medium"))
          ((analyzedOf analyzeDB "himss-2025").countP (fun c => c.priority == "low"))),
       { analyzeDB with contacts := analyzeDB.contacts.map (fun c =>
           if filterMatches (get_conference_filter "himss-2025") c then scoreContact c else c) }) :=
  ⟨⟨by decide, by decide, by decide⟩,
   (analyze_contacts_sorts_and_persists analyzeDB "user-1" "himss-2025" demoUser
      (by decide) (by decide) (by decide)).1⟩

/-- C8: analysis persists each scored contact under its original
identifier and preserves name, email, company, title, industry and
conference, replacing only score, priority and the engine-generated
notes annotation; the store keeps its shape. -/
theorem analyze_contacts_frame (st : DB) (user_id conference_id : String) (u : UserProfile)
    (hprof : st.users.find? (fun x => x.id == user_id) = some u)
    (hids : (st.contacts.map Contact.id).Nodup) :
    ((analyze_contacts st user_id conference_id).2).contacts
      = st.contacts.map (fun c =>
          if filterMatches (get_conference_filter conference_id) c then scoreContact c else c)
    ∧ (∀ c : Contact, (scoreContact c).id = c.id
        ∧ (scoreContact c).name = c.name ∧ (scoreContact c).email = c.email
        ∧ (scoreContact c).company = c.company ∧ (scoreContact c).title = c.title
        ∧ (scoreContact c).industry = c.industry ∧ (scoreContact c).conference = c.conference
        ∧ (scoreContact c).notes = c.notes) :=
  ⟨analyze_contacts_store_contacts st user_id conference_id u hprof hids,
   fun _ => ⟨rfl, rfl, rfl, rfl, rfl, rfl, rfl, rfl⟩⟩

/-- Witness for C8: concrete two-contact store; the persisted collection
is the in-place scored rewrite of the original one. -/
theorem analyze_contacts_frame_witness :
    (analyzeDB.users.find? (fun x => x.id == "user-1") = some demoUser
      ∧ (analyzeDB.contacts.map Contact.id).Nodup)
    ∧ ((analyze_contacts analyzeDB "user-1" "himss-2025").2).contacts
        = analyzeDB.contacts.map (fun c =>
            if filterMatches (get_conference_filter "himss-2025") c then scoreContact c else c) :=
  ⟨⟨by decide, by decide⟩,
   (analyze_contacts_frame analyzeDB "user-1" "himss-2025" demoUser (by decide) (by decide)).1⟩

/-! ## General lemmas: indexed mapping -/

/-- Optional indexing through `mapIdx`. -/
theorem mapIdx_getElem? {α β : Type} :
    ∀ (l : List α) (f : Nat → α → β) (i : Nat), (l.mapIdx f)[i]? = l[i]?.map (f i) := by
  intro l
  induction l with
  | nil => intro f i; simp
  | cons a as ih =>
    intro f i
    rw [List.mapIdx_cons]
    cases i with
    | zero => simp
    | succ n => simp [ih (fun j => f (j + 1)) n]

/-- Mapping after `mapIdx` composes pointwise. -/
theorem map_mapIdx {α β γ : Type} :
    ∀ (l : List α) (f : Nat → α → β) (g : β → γ),
      (l.mapIdx f).map g = l.mapIdx (fun i a => g (f i a)) := by
  intro l
  induction l with
  | nil => intro f g; rfl
  | cons a as ih =>
    intro f g
    rw [List.mapIdx_cons, List.map_cons, List.mapIdx_cons, ih]

/-- The slot label of the recommendation at position `i` is the fixed
slot list cycled by `i mod 5`, whatever the generated id, profile and
conference are. -/
theorem suggest_meetings_slot_at (st : DB) (user_id conference_id : String)
    (fresh_ids : Nat → String) (i : Nat) (r : MeetingRecommendation)
    (hr : ((suggest_meetings st user_id conference_id fresh_ids).1.meeting_suggestions)[i]? = some r) :
    r.suggested_time = time_slots.getD (i % time_slots.length) "" := by
  simp only [suggest_meetings] at hr
  rw [mapIdx_getElem?] at hr
  obtain ⟨c, _hc, hfc⟩ := Option.map_eq_some'.mp hr
  rw [← hfc]
  rfl

/-! ## Claim theorems: meeting suggestion -/

/-- C6: the composer selects up to 10 conference-matching high-priority
contacts; exactly when that query is empty it falls back to up to 5
contacts matching the conference filter alone; and a missing user
profile does not fail the operation: the message template falls back to
the defaults "Your Company" and "networking". -/
theorem suggest_meetings_selection (st : DB) (user_id conference_id : String)
    (fresh_ids : Nat → String) :
    ((st.contacts.filter (fun c =>
          filterMatches (get_conference_filter conference_id) c && c.priority == "high")).take 10 ≠ [] →
      (suggest_meetings st user_id conference_id fresh_ids).1.meeting_suggestions
        = ((st.contacts.filter (fun c =>
              filterMatches (get_conference_filter conference_id) c && c.priority == "high")).take 10).mapIdx
            (fun i c => buildRecommendation (fresh_ids i)
              (st.users.find? (fun u => u.id == user_id)) conference_id i c)
      ∧ (suggest_meetings st user_id conference_id fresh_ids).1.meeting_suggestions.length ≤ 10)
    ∧ ((st.contacts.filter (fun c =>
          filterMatches (get_conference_filter conference_id) c && c.priority == "high")).take 10 = [] →
      (suggest_meetings st user_id conference_id fresh_ids).1.meeting_suggestions
        = ((st.contacts.filter (filterMatches (get_conference_filter conference_id))).take 5).mapIdx
            (fun i c => buildRecommendation (fresh_ids i)
              (st.users.find? (fun u => u.id == user_id)) conference_id i c)
      ∧ (suggest_meetings st user_id conference_id fresh_ids).1.meeting_suggestions.length ≤ 5)
    ∧ (st.users.find? (fun u => u.id == user_id) = none →
      ((suggest_meetings st user_id conference_id fresh_ids).1.meeting_suggestions
        = (if ((st.contacts.filter (fun c =>
              filterMatches (get_conference_filter conference_id) c && c.priority == "high")).take 10).isEmpty
          then (st.contacts.filter (filterMatches (get_conference_filter conference_id))).take 5
          else (st.contacts.filter (fun c =>
              filterMatches (get_conference_filter conference_id) c && c.priority == "high")).take 10).mapIdx
            (fun i c => buildRecommendation (fresh_ids i) none conference_id i c))
      ∧ (∀ (new_id : String) (i : Nat) (c : Contact),
          (buildRecommendation new_id none conference_id i c).personalized_message
            = "Hi " ++ c.name ++ ", I\x27m with " ++ "Your Company" ++
              " and noticed your work at " ++ c.company ++ ". I\x27d love to discuss " ++
              "networking" ++ ". Available for coffee at " ++ upperStr conference_id ++ "?")) := by
  refine ⟨fun hne => ?_, fun hemp => ?_, fun hnone => ⟨?_, fun new_id i c => rfl⟩⟩
  · have hempF : ((st.contacts.filter (fun c =>
        filterMatches (get_conference_filter conference_id) c && c.priority == "high")).take 10).isEmpty
          = false := by
      rw [Bool.eq_false_iff]
      intro h
      exact hne (List.isEmpty_iff.mp h)
    constructor
    · simp only [suggest_meetings, hempF, Bool.false_eq_true, if_false]
    · simp only [suggest_meetings, hempF, Bool.false_eq_true, if_false, List.length_mapIdx,
        List.length_take]
      exact Nat.min_le_left _ _
  · have hempT : ((st.contacts.filter (fun c =>
        filterMatches (get_conference_filter conference_id) c && c.priority == "high")).take 10).isEmpty
          = true := by
      rw [hemp]; rfl
    constructor
    · simp only [suggest_meetings, hempT, if_true]
    · simp only [suggest_meetings, hempT, if_true, List.length_mapIdx, List.length_take]
      exact Nat.min_le_left _ _
  · simp only [suggest_meetings, hnone]

/-- Witness for C6: a store with no profiles and a single medium-priority
contact; the high-priority query is empty, the fallback returns it,
capped at 5. -/
theorem suggest_meetings_selection_witness :
    ((ghostDB.contacts.filter (fun c =>
        filterMatches (get_conference_filter "himss-2025") c && c.priority == "high")).take 10 = []
      ∧ ghostDB.users.find? (fun u => u.id == "user-1") = none)
    ∧ (suggest_meetings ghostDB "user-1" "himss-2025" demoIds).1.meeting_suggestions
        = ((ghostDB.contacts.filter (filterMatches (get_conference_filter "himss-2025"))).take 5).mapIdx
            (fun i c => buildRecommendation (demoIds i)
              (ghostDB.users.find? (fun u => u.id == "user-1")) "himss-2025" i c)
    ∧ (suggest_meetings ghostDB "user-1" "himss-2025" demoIds).1.meeting_suggestions.length ≤ 5 :=
  ⟨⟨by decide, by decide⟩,
   ((suggest_meetings_selection ghostDB "user-1" "himss-2025" demoIds).2.1 (by decide)).1,
   ((suggest_meetings_selection ghostDB "user-1" "himss-2025" demoIds).2.1 (by decide)).2⟩

/-- C7: within one invocation the contact at position `i` receives the
slot label at index `i mod 5` of the fixed five-slot list (so position 5
reuses the label of position 0), and no slot state survives between
invocations: a second invocation over the unchanged contact set produces
its own records, appended after the first ones, carrying the identical
slot labels. -/
theorem suggest_meetings_slot_cycle (st : DB) (user_id conference_id : String)
    (ids1 ids2 : Nat → String) :
    (∀ (i : Nat) (r : MeetingRecommendation),
        ((suggest_meetings st user_id conference_id ids1).1.meeting_suggestions)[i]? = some r →
        r.suggested_time = time_slots.getD (i % time_slots.length) "")
    ∧ (∀ (r0 r5 : MeetingRecommendation),
        ((suggest_meetings st user_id conference_id ids1).1.meeting_suggestions)[0]? = some r0 →
        ((suggest_meetings st user_id conference_id ids1).1.meeting_suggestions)[5]? = some r5 →
        r5.suggested_time = r0.suggested_time)
    ∧ ((suggest_meetings (suggest_meetings st user_id conference_id ids1).2
          user_id conference_id ids2).1.meeting_suggestions.map MeetingRecommendation.suggested_time
        = (suggest_meetings st user_id conference_id ids1).1.meeting_suggestions.map
            MeetingRecommendation.suggested_time)
    ∧ ((suggest_meetings (suggest_meetings st user_id conference_id ids1).2
          user_id conference_id ids2).2.meetings
        = st.meetings ++ (suggest_meetings st user_id conference_id ids1).1.meeting_suggestions
            ++ (suggest_meetings (suggest_meetings st user_id conference_id ids1).2
                user_id conference_id ids2).1.meeting_suggestions) := by
  refine ⟨fun i r hr => suggest_meetings_slot_at st user_id conference_id ids1 i r hr,
    fun r0 r5 h0 h5 => ?_, ?_, rfl⟩
  · rw [suggest_meetings_slot_at st user_id conference_id ids1 0 r0 h0,
      suggest_meetings_slot_at st user_id conference_id ids1 5 r5 h5]
    rfl
  · simp only [suggest_meetings]
    rw [map_mapIdx, map_mapIdx]
    rfl

/-- Witness for C7: the single-contact store; the recommendation at
position 0 exists and carries the first slot label. -/
theorem suggest_meetings_slot_cycle_witness :
    ((suggest_meetings ghostDB "user-1" "himss-2025" demoIds).1.meeting_suggestions)[0]?
      = some (buildRecommendation (demoIds 0) none "himss-2025" 0 analystContact)
    ∧ (buildRecommendation (demoIds 0) none "himss-2025" 0 analystContact).suggested_time
      = time_slots.getD (0 % time_slots.length) "" :=
  ⟨by decide,
   (suggest_meetings_slot_cycle ghostDB "user-1" "himss-2025" demoIds demoIds).1 0
     (buildRecommendation (demoIds 0) none "himss-2025" 0 analystContact) (by decide)⟩

end MedAhead
